import Mathlib

/-!
Verification of the analytics core of the learner-scorecard dashboard
(`app.py`).  Each analytics function is shallowly embedded as a pure Lean
function over a list of telemetry event records:

* timestamps are modelled as natural numbers (seconds since an epoch;
  calendar dates are recovered by flooring to 86400-second days);
* `evaluation_score` is a rational number (the source consumes float
  scores but performs only field arithmetic and comparisons on them);
* string columns that pandas may hold as NaN (`primary_weakness`,
  `recommended_resource_id`) are `Option String`; pandas `value_counts`,
  `mode` and `groupby` drop those NaN entries, which the embeddings
  mirror via `filterMap`;
* a pandas NaN result of an aggregation over an empty selection
  (`mean`, `std`) is modelled as `none`;
* `consistency_score` computes a standard deviation, an irrational
  quantity; the embedding tracks its square (the population variance),
  which determines the standard deviation uniquely since `Real.sqrt` is
  injective on nonnegative rationals.  All statements about
  `consistency_score` are phrased on the squared value.
-/

namespace Scorecard

/-- Event record: one telemetry row, restricted to the columns the
analytics functions under verification actually read. -/
structure Event where
  timestamp_utc : Nat
  resource_id : String
  evaluation_score : ℚ
  primary_weakness : Option String
  recommended_resource_id : Option String
  user_prompt_character_count : Nat
deriving DecidableEq, Repr, Inhabited

/-- Arithmetic mean of a list of rationals (pandas `Series.mean` on a
non-empty series). -/
def qmean (xs : List ℚ) : ℚ := xs.sum / xs.length

/-- Pandas `Series.mean`: NaN (here `none`) on an empty series. -/
def meanOpt (xs : List ℚ) : Option ℚ :=
  if xs = [] then none else some (qmean xs)

/-- Summary mapping returned by `learner_summary`. -/
structure LearnerSummary where
  events : Nat
  resources : Nat
  avg_score : Option ℚ
  total_chars : Nat
deriving DecidableEq, Repr

/-- Embedding of `learner_summary` (app.py): row count, `nunique` of
`resource_id`, mean of `evaluation_score` (NaN on empty input), and the
sum of `user_prompt_character_count`. -/
def learner_summary (df : List Event) : LearnerSummary where
  events := df.length
  resources := (df.map Event.resource_id).dedup.length
  avg_score := meanOpt (df.map Event.evaluation_score)
  total_chars := (df.map Event.user_prompt_character_count).sum

/-- Embedding of `goal_progress` (app.py): `df.tail(target_interactions)`
keeps the last `min` rows in existing order; the current average is the
mean of that window's scores, or `0` when the window is empty; the
remaining count is `max 0 (target_interactions - len recent)`, which is
exactly truncated subtraction on `Nat`.  The `target_score` argument is
kept to match the source signature. -/
def goal_progress (df : List Event) (target_score : ℚ)
    (target_interactions : Nat) : ℚ × Nat :=
  let recent := df.drop (df.length - target_interactions)
  let current_avg :=
    if recent = [] then 0 else qmean (recent.map Event.evaluation_score)
  (current_avg, target_interactions - recent.length)

/-- Embedding of the square of `consistency_score` (app.py):
`Series.std(ddof=0)` is the square root of the mean squared deviation
from the mean, and is NaN on an empty series. -/
def consistency_score_sq (df : List Event) : Option ℚ :=
  let xs := df.map Event.evaluation_score
  if xs = [] then none
  else some (((xs.map (fun x => (x - qmean xs) ^ 2)).sum) / xs.length)

/-- Population variance written in the spec's terms: divisor `n` (not
`n - 1`), in the mean-of-squares form. -/
def popVariance (xs : List ℚ) : ℚ :=
  (xs.map (fun x => x ^ 2)).sum / xs.length - qmean xs ^ 2

/-- Selection of a best element under a strict preference `better`,
scanning left to right and replacing the current best only when the
candidate held is strictly better; ties keep the earlier element, as a
stable descending sort followed by taking the head would. -/
def pickBest {α : Type} (better : α → α → Bool) : List α → Option α
  | [] => none
  | v :: rest =>
    match pickBest better rest with
    | none => some v
    | some b => if better b v then some b else some v

/-- Preference used to embed `value_counts().idxmax()`: a candidate is
strictly better when it occurs strictly more often. -/
def weaknessBetter (ws : List String) (b v : String) : Bool :=
  ws.count v < ws.count b

/-- Preference used to embed `Series.mode().iloc[0]`: more frequent
wins, and among equally frequent values the lexicographically smaller
one wins (pandas `mode` returns the maximizers in sorted order). -/
def modeBetter (xs : List String) (b v : String) : Bool :=
  (decide (xs.count v < xs.count b)) ||
    ((xs.count b == xs.count v) && decide (b < v))

/-- Non-null `primary_weakness` values of a subset, in row order
(pandas `value_counts` ignores NaN entries). -/
def weaknessList (df : List Event) : List String :=
  df.filterMap Event.primary_weakness

/-- Non-null `recommended_resource_id` values among the rows whose
`primary_weakness` equals the given label. -/
def sliceRecIds (df : List Event) (top : String) : List String :=
  (df.filter (fun e => e.primary_weakness = some top)).filterMap
    Event.recommended_resource_id

/-- Embedding of `get_recommendations` (app.py): placeholder on an
empty frame; placeholder when every `primary_weakness` is null; else
the most frequent weakness, the mode of `recommended_resource_id`
among that weakness's rows ("general-review" when that slice has no
non-null value), and a fixed tip string. -/
def get_recommendations (df : List Event) : List String :=
  if df = [] then ["No data available for recommendations."]
  else
    let ws := weaknessList df
    match pickBest (weaknessBetter ws) ws with
    | none => ["Keep practicing!"]
    | some top =>
      let slice := sliceRecIds df top
      let rid := (pickBest (modeBetter slice) slice).getD "general-review"
      ["Primary Weakness: **" ++ top ++ "**",
       "Recommended Action: Review **" ++ rid ++ "** to improve in this area.",
       "Tip: Focus on consistent application of rubric criteria."]

/-- Ascending-timestamp order used by `sort_values(timestamp_utc)`. -/
def tsLe (a b : Event) : Prop := a.timestamp_utc ≤ b.timestamp_utc

instance : DecidableRel tsLe := fun a b => Nat.decLe _ _

instance : IsTotal Event tsLe := ⟨fun a b => Nat.le_total _ _⟩

instance : IsTrans Event tsLe := ⟨fun _ _ _ => Nat.le_trans⟩

/-- Descending-timestamp order used by
`sort_values(timestamp_utc, ascending=False)`. -/
def tsGe (a b : Event) : Prop := b.timestamp_utc ≤ a.timestamp_utc

instance : DecidableRel tsGe := fun a b => Nat.decLe _ _

instance : IsTotal Event tsGe := ⟨fun a b => Nat.le_total _ _⟩

instance : IsTrans Event tsGe := ⟨fun _ _ _ h1 h2 => Nat.le_trans h2 h1⟩

/-- Pandas `Series.median` on rationals: middle element of the sorted
series for odd length, mean of the two middle elements for even
length.  (The value on an empty series is irrelevant: every caller in
the source guards emptiness first.) -/
def qmedian (xs : List ℚ) : ℚ :=
  let s := List.insertionSort (fun a b : ℚ => a ≤ b) xs
  if s.length % 2 = 1 then s.getD (s.length / 2) 0
  else (s.getD (s.length / 2 - 1) 0 + s.getD (s.length / 2) 0) / 2

/-- Result frame of `surprise_dips`: the column-name list of the pandas
DataFrame together with its `(timestamp, score)` rows. -/
structure DipsTable where
  cols : List String
  rows : List (Nat × ℚ)
deriving DecidableEq, Repr

/-- Embedding of `surprise_dips` (app.py): on an empty frame the source
constructs `DataFrame(columns=["timestamp", "score", "note"])`;
otherwise it keeps the rows whose score is strictly below the median
minus 1 and projects them to the renamed two-column frame. -/
def surprise_dips (df : List Event) : DipsTable :=
  if df = [] then { cols := ["timestamp", "score", "note"], rows := [] }
  else
    let med := qmedian (df.map Event.evaluation_score)
    { cols := ["timestamp", "score"],
      rows := (df.filter (fun e => e.evaluation_score < med - 1)).map
        (fun e => (e.timestamp_utc, e.evaluation_score)) }

/-- Row of the `acted_on_feedback` result frame. -/
structure FeedbackRow where
  timestamp : Nat
  resource : String
  note : String
deriving DecidableEq, Repr, Inhabited

/-- One step of the `acted_on_feedback` loop: compare the
recommendation of sorted row `i` with the resource of sorted row
`i + 1` (a null recommendation compares unequal to every string, as
NaN does in pandas). -/
def feedbackAt (s : List Event) (i : Nat) : Option FeedbackRow :=
  match (s.getD i default).recommended_resource_id with
  | none => none
  | some r =>
    if r = (s.getD (i + 1) default).resource_id then
      some { timestamp := (s.getD (i + 1) default).timestamp_utc,
             resource := r,
             note := "Followed recommendation next session" }
    else none

/-- Embedding of `acted_on_feedback` (app.py): sort ascending by
timestamp, then scan indices `0 .. n - 2`, emitting a record whenever
row `i`'s recommendation equals row `i + 1`'s resource. -/
def acted_on_feedback (df : List Event) : List FeedbackRow :=
  let s := List.insertionSort tsLe df
  (List.range (s.length - 1)).filterMap (feedbackAt s)

/-- Row of the `recent_sessions` result frame. -/
structure SessionRow where
  timestamp : Nat
  score : ℚ
  weakness : Option String
  resource : String
deriving DecidableEq, Repr

/-- Embedding of `recent_sessions` (app.py): sort descending by
timestamp, keep the first `limit` rows, project four columns. -/
def recent_sessions (df : List Event) (limit : Nat) : List SessionRow :=
  ((List.insertionSort tsGe df).take limit).map
    (fun e => { timestamp := e.timestamp_utc, score := e.evaluation_score,
                weakness := e.primary_weakness, resource := e.resource_id })

/-- Inner loop of `bounce_back_prompts`: starting at index `j`, walk
forward through the score list and return the distance `j' - i` to the
first index `j'` whose score is at least `avg`, or `none` when the end
of the list is reached first. -/
def goRec (scores : List ℚ) (avg : ℚ) (i : Nat) (j : Nat) : Option Nat :=
  if h : j < scores.length then
    if avg ≤ scores.getD j 0 then some (j - i)
    else goRec scores avg i (j + 1)
  else none
termination_by scores.length - j

/-- Embedding of `bounce_back_prompts` (app.py): `none` on an empty
score list; otherwise collect, for every index `i` except the last
whose score is below the mean minus `1/2`, the forward distance to the
first later score at or above the mean (skipping dips that never
recover, as the source's inner loop appends nothing for them); `none`
when nothing was collected, else the average of the collected
distances. -/
def bounce_back_prompts (df : List Event) : Option ℚ :=
  let scores := df.map Event.evaluation_score
  if scores = [] then none
  else
    let avg := qmean scores
    let recoveries := (List.range (scores.length - 1)).filterMap
      (fun i => if scores.getD i 0 < avg - 1/2 then goRec scores avg i (i + 1)
                else none)
    if recoveries = [] then none
    else some ((recoveries.map (fun d : Nat => (d : ℚ))).sum
      / recoveries.length)

/-- Dip indices in the spec's terms: every index except the last whose
score is strictly below the mean minus one half. -/
def dipIndices (scores : List ℚ) : List Nat :=
  (List.range (scores.length - 1)).filter
    (fun i => scores.getD i 0 < qmean scores - 1/2)

/-- Forward recovery distance in the spec's terms: the first index
after `i` whose score is at or above the mean, minus `i`; `none` when
no later score reaches the mean. -/
def recoveryDistance (scores : List ℚ) (i : Nat) : Option Nat :=
  ((List.range' (i + 1) (scores.length - (i + 1))).find?
    (fun j => qmean scores ≤ scores.getD j 0)).map (fun j => j - i)

/-- First occurrences of each value, in order of first appearance (the
key set an iteration over a pandas group-by produces, before pandas
sorts it). -/
def firstDedup {α : Type} [DecidableEq α] : List α → List α
  | [] => []
  | x :: xs => x :: firstDedup (xs.filter (fun y => y ≠ x))
termination_by l => l.length
decreasing_by
  simp only [List.length_cons]
  exact Nat.lt_succ_of_le (List.length_filter_le _ _)

/-- Minimum of a list of naturals (pandas `Series.min` on a non-empty
series; the empty case never arises in the source). -/
def minNat : List Nat → Nat
  | [] => 0
  | x :: xs => xs.foldl min x

/-- Timestamp of the first use of resource `r` within the subset. -/
def firstUse (df : List Event) (r : String) : Nat :=
  minNat ((df.filter (fun e => e.resource_id = r)).map Event.timestamp_utc)

/-- Row of the `resource_effect` result frame.  `before` and `delta`
are `none` exactly when the source stores Python `None` there. -/
structure EffectRow where
  resource : String
  before : Option ℚ
  after : ℚ
  delta : Option ℚ
deriving DecidableEq, Repr

/-- Body of the `resource_effect` group loop for one resource: split
the whole subset at the resource's first-use timestamp, skip the
resource when the at-or-after part is empty, and store `none` for
`before` and `delta` when the strictly-before part is empty. -/
def effectRowFor (df : List Event) (r : String) : Option EffectRow :=
  let first_ts := firstUse df r
  let beforeScores :=
    (df.filter (fun e => e.timestamp_utc < first_ts)).map Event.evaluation_score
  let afterScores :=
    (df.filter (fun e => first_ts ≤ e.timestamp_utc)).map Event.evaluation_score
  if afterScores = [] then none
  else
    some { resource := r
           before := meanOpt beforeScores
           after := qmean afterScores
           delta := if beforeScores = [] then none
                    else some (qmean afterScores - qmean beforeScores) }

/-- Descending order on optional deltas with `none` last: pandas
`sort_values("delta", ascending=False)` keeps NaN rows at the end. -/
def deltaGe : Option ℚ → Option ℚ → Prop
  | none, none => True
  | some _, none => True
  | none, some _ => False
  | some x, some y => y ≤ x

instance : DecidableRel deltaGe := fun a b =>
  match a, b with
  | none, none => isTrue trivial
  | some _, none => isTrue trivial
  | none, some _ => isFalse id
  | some x, some y => inferInstanceAs (Decidable (y ≤ x))

/-- The row order of the `resource_effect` result frame. -/
def effDeltaGe (a b : EffectRow) : Prop := deltaGe a.delta b.delta

instance : DecidableRel effDeltaGe := fun a b =>
  inferInstanceAs (Decidable (deltaGe a.delta b.delta))

instance : IsTotal (Option ℚ) deltaGe where
  total a b := by
    cases a <;> cases b <;> simp [deltaGe] <;> exact le_total _ _

instance : IsTrans (Option ℚ) deltaGe where
  trans a b c hab hbc := by
    cases a <;> cases b <;> cases c <;> simp_all [deltaGe]
    exact le_trans hbc hab

instance : IsTotal EffectRow effDeltaGe where
  total a b := IsTotal.total (r := deltaGe) a.delta b.delta

instance : IsTrans EffectRow effDeltaGe where
  trans a b c hab hbc := IsTrans.trans (r := deltaGe) _ _ _ hab hbc

/-- Embedding of `resource_effect` (app.py): empty frame on empty
input; otherwise one candidate row per distinct resource (pandas
iterates group keys in sorted order) and a final descending sort on
`delta` with null deltas last. -/
def resource_effect (df : List Event) : List EffectRow :=
  if df = [] then []
  else
    let resources := List.insertionSort (fun a b : String => a ≤ b)
      (firstDedup (df.map Event.resource_id))
    List.insertionSort effDeltaGe (resources.filterMap (effectRowFor df))

/-- Calendar date of an event, as a day number (`.dt.date` on a
seconds-since-epoch timestamp). -/
def eventDate (e : Event) : Nat := e.timestamp_utc / 86400

/-- Rows that survive the group-by on `(date, primary_weakness)`:
pandas drops rows whose group key contains NaN. -/
def weaknessRows (df : List Event) : List Event :=
  df.filter (fun e => (e.primary_weakness).isSome)

/-- Index of the pivoted daily-count frame: the distinct dates, sorted
ascending (pandas `pivot` sorts its index). -/
def decayDates (df : List Event) : List Nat :=
  List.insertionSort (fun a b : Nat => a ≤ b)
    (firstDedup ((weaknessRows df).map eventDate))

/-- Columns of the pivoted daily-count frame: the distinct weakness
labels, sorted (pandas `pivot` sorts its columns). -/
def decayWeaknesses (df : List Event) : List String :=
  List.insertionSort (fun a b : String => a ≤ b)
    (firstDedup ((weaknessRows df).filterMap Event.primary_weakness))

/-- Number of events on date `d` whose primary weakness is `w` (the
`groupby(["date", weakness]).size()` cell, with the pivot's
`fillna(0)` built in). -/
def dailyCount (df : List Event) (d : Nat) (w : String) : Nat :=
  (df.filter (fun e => eventDate e = d ∧ e.primary_weakness = some w)).length

/-- One raw pivot column: the daily counts of weakness `w` along the
sorted date index. -/
def rawSeries (df : List Event) (w : String) : List ℚ :=
  (decayDates df).map (fun d => (dailyCount df d w : ℚ))

/-- Last at most seven entries of a list. -/
def tail7 (l : List ℚ) : List ℚ := l.drop (l.length - 7)

/-- Streaming evaluation of `rolling(window=7, min_periods=1).mean()`:
`buf` carries the last at most seven already-consumed entries, and each
output entry is the mean of the window ending at the current entry. -/
def roll7 (buf : List ℚ) : List ℚ → List ℚ
  | [] => []
  | x :: rest =>
    let w := tail7 (buf ++ [x])
    (w.sum / w.length) :: roll7 w rest

/-- Embedding of the data underlying `weakness_decay_chart` (app.py):
empty on an empty frame, otherwise one smoothed column per distinct
weakness label. -/
def weakness_decay_chart (df : List Event) : List (String × List ℚ) :=
  if df = [] then []
  else (decayWeaknesses df).map (fun w => (w, roll7 [] (rawSeries df w)))

/-- Trailing moving average in the spec's terms: entry `i` is the mean
of the raw entries in the window `[i + 1 - 7, i]`, clipped to the start
of the series. -/
def smoothedSpec (xs : List ℚ) (i : Nat) : ℚ :=
  let win := (xs.take (i + 1)).drop (i + 1 - 7)
  win.sum / win.length


/-- Concrete sample row shared by the witness theorems. -/
def sampleRow (ts : Nat) (r : String) (score : ℚ) : Event :=
  { timestamp_utc := ts, resource_id := r, evaluation_score := score,
    primary_weakness := some "Clarity",
    recommended_resource_id := some "rec-01",
    user_prompt_character_count := 100 }
theorem sq_dev_sum (xs : List ℚ) (m : ℚ) :
    (xs.map (fun x => (x - m) ^ 2)).sum
      = (xs.map (fun x => x ^ 2)).sum - 2 * m * xs.sum + xs.length * m ^ 2 := by
  induction xs with
  | nil => simp
  | cons a l ih =>
    simp only [List.map_cons, List.sum_cons, List.length_cons, ih]
    push_cast
    ring

theorem consistency_eq_popVariance (df : List Event)
    (h : df ≠ []) :
    consistency_score_sq df
      = some (popVariance (df.map Event.evaluation_score)) := by
  have hx : df.map Event.evaluation_score ≠ [] := by
    simpa using h
  set xs := df.map Event.evaluation_score with hxs
  have hn : (0 : ℚ) < xs.length := by
    have : 0 < xs.length := List.length_pos.2 hx
    exact_mod_cast this
  unfold consistency_score_sq popVariance
  rw [← hxs]
  rw [if_neg hx]
  congr 1
  rw [sq_dev_sum]
  unfold qmean
  field_simp
  ring

theorem pickBest_eq_none {α : Type} (better : α → α → Bool)
    (xs : List α) : pickBest better xs = none ↔ xs = [] := by
  cases xs with
  | nil => simp [pickBest]
  | cons v rest =>
    simp only [pickBest]
    cases h : pickBest better rest with
    | none => simp
    | some b =>
      constructor
      · intro hcontra
        by_cases hb : better b v <;> simp [hb] at hcontra
      · intro hcontra
        exact absurd hcontra (List.cons_ne_nil _ _)

theorem pickBest_mem {α : Type} (better : α → α → Bool) :
    ∀ (xs : List α) (m : α), pickBest better xs = some m → m ∈ xs := by
  intro xs
  induction xs with
  | nil => intro m hm; simp [pickBest] at hm
  | cons v rest ih =>
    intro m hm
    simp only [pickBest] at hm
    cases h : pickBest better rest with
    | none =>
      rw [h] at hm
      simp at hm
      simp [hm]
    | some b =>
      rw [h] at hm
      by_cases hb : better b v
      · simp [hb] at hm
        exact List.mem_cons_of_mem _ (hm ▸ ih b h)
      · simp [hb] at hm
        simp [hm]

theorem pickBest_max {α : Type} (better : α → α → Bool) (f : α → Nat)
    (hf : ∀ b v, better b v = true → f v ≤ f b)
    (hnf : ∀ b v, better b v = false → f b ≤ f v) :
    ∀ (xs : List α) (m : α), pickBest better xs = some m →
      ∀ v ∈ xs, f v ≤ f m := by
  intro xs
  induction xs with
  | nil => intro m hm; simp [pickBest] at hm
  | cons v rest ih =>
    intro m hm w hw
    simp only [pickBest] at hm
    cases h : pickBest better rest with
    | none =>
      rw [h] at hm
      simp at hm
      have hrest : rest = [] := (pickBest_eq_none better rest).1 h
      subst hrest
      simp at hw
      simp [hw, hm]
    | some b =>
      rw [h] at hm
      rcases List.mem_cons.1 hw with hwv | hwr
      · by_cases hb : better b v
        · simp [hb] at hm
          subst hm
          rw [hwv]
          exact hf _ _ hb
        · simp [hb] at hm
          subst hm
          rw [hwv]
      · by_cases hb : better b v
        · simp [hb] at hm
          subst hm
          exact ih b h w hwr
        · simp [hb] at hm
          subst hm
          exact le_trans (ih b h w hwr) (hnf _ _ (by simpa using hb))

/-- Claim C9: `learner_summary` returns the row count under `events`,
the number of distinct `resource_id` values under `resources`, the
arithmetic mean of `evaluation_score` under `avg_score` (undefined on
empty input, modelled as `none`), and the sum of
`user_prompt_character_count` under `total_chars`; in particular the
two-row example with scores 4 and 3 and character counts 100 and 200
yields events 2, resources 2, average 7/2 and total 300. -/
theorem learner_summary_spec (df : List Event) :
    (learner_summary df).events = df.length ∧
    (learner_summary df).resources = (df.map Event.resource_id).toFinset.card ∧
    ((learner_summary df).avg_score =
      if df = [] then none
      else some ((df.map Event.evaluation_score).sum / df.length)) ∧
    (learner_summary df).total_chars
      = (df.map Event.user_prompt_character_count).sum ∧
    learner_summary
      [{ timestamp_utc := 0, resource_id := "R-01", evaluation_score := 4,
         primary_weakness := some "Clarity",
         recommended_resource_id := some "rec-01",
         user_prompt_character_count := 100 },
       { timestamp_utc := 86400, resource_id := "R-02", evaluation_score := 3,
         primary_weakness := some "Clarity",
         recommended_resource_id := some "rec-01",
         user_prompt_character_count := 200 }]
      = { events := 2, resources := 2, avg_score := some (7 / 2),
          total_chars := 300 } := by
  refine ⟨rfl, (List.card_toFinset _).symm, ?_, rfl, ?_⟩
  · by_cases h : df = []
    · subst h; rfl
    · rw [if_neg h]
      simp only [learner_summary, meanOpt, qmean, List.length_map]
      rw [if_neg (by simpa using h)]
  · simp only [learner_summary, meanOpt, qmean, List.map_cons, List.map_nil,
      List.sum_cons, List.sum_nil, List.length_cons, List.length_nil,
      LearnerSummary.mk.injEq]
    refine ⟨by norm_num, by decide, ?_, by norm_num⟩
    rw [if_neg (by simp)]
    norm_num

/-- Claim C10: `goal_progress` never reads its `target_score`
argument, so its result is the same for any two target scores on every
dataframe and interaction count. -/
theorem goal_progress_ignores_target (df : List Event) (s1 s2 : ℚ)
    (k : Nat) : goal_progress df s1 k = goal_progress df s2 k := rfl

theorem qmean_of_all_eq (xs : List ℚ) (c : ℚ) (hx : xs ≠ [])
    (h : ∀ x ∈ xs, x = c) : qmean xs = c := by
  have hsum : xs.sum = xs.length • c := List.sum_eq_card_nsmul xs c h
  have hn : (0 : ℚ) < xs.length := by
    exact_mod_cast List.length_pos.2 hx
  unfold qmean
  rw [hsum, nsmul_eq_mul]
  field_simp

/-- Claim C6: on every non-empty subset, the squared
`consistency_score` equals the population variance of the evaluation
scores (divisor `n`, not `n - 1`); in particular the score is 0 on
every single-row subset and on every subset whose scores are all
identical. -/
theorem consistency_score_spec (df : List Event) (h : df ≠ []) :
    consistency_score_sq df
      = some (popVariance (df.map Event.evaluation_score)) ∧
    (df.length = 1 → consistency_score_sq df = some 0) ∧
    ((∃ c, ∀ e ∈ df, e.evaluation_score = c) →
      consistency_score_sq df = some 0) := by
  refine ⟨consistency_eq_popVariance df h, ?_, ?_⟩
  · intro h1
    match df, h1 with
    | [e], _ =>
      simp [consistency_score_sq, qmean]
  · rintro ⟨c, hc⟩
    have hx : df.map Event.evaluation_score ≠ [] := by simpa using h
    have hall : ∀ x ∈ df.map Event.evaluation_score, x = c := by
      intro x hxm
      obtain ⟨e, he, rfl⟩ := List.mem_map.1 hxm
      exact hc e he
    have hm : qmean (df.map Event.evaluation_score) = c :=
      qmean_of_all_eq _ c hx hall
    unfold consistency_score_sq
    rw [if_neg hx]
    congr 1
    have hz : ((df.map Event.evaluation_score).map
        (fun x => (x - qmean (df.map Event.evaluation_score)) ^ 2)).sum = 0 := by
      apply List.sum_eq_zero
      intro x hxm
      obtain ⟨y, hy, rfl⟩ := List.mem_map.1 hxm
      rw [hm, hall y hy]
      ring
    rw [hz]
    simp

/-- Witness for C6 at a concrete single-row subset. -/
theorem consistency_score_spec_witness :
    consistency_score_sq
      [{ timestamp_utc := 0, resource_id := "R-01", evaluation_score := 4,
         primary_weakness := some "Clarity",
         recommended_resource_id := some "rec-01",
         user_prompt_character_count := 100 }] = some 0 :=
  (consistency_score_spec _ (by simp)).2.1 rfl

/-- Claim C4 counterexample: the empty-input frame of `surprise_dips`
carries the three columns `timestamp, score, note`, while the
non-empty output carries only `timestamp, score`, so the empty output
does not have the same column shape as the non-empty output. -/
theorem surprise_dips_shape_counterexample :
    (surprise_dips []).cols ≠
      (surprise_dips
        [{ timestamp_utc := 0, resource_id := "R-01",
           evaluation_score := 3, primary_weakness := some "Clarity",
           recommended_resource_id := some "rec-01",
           user_prompt_character_count := 10 }]).cols := by
  decide

/-- Claim C4 as amended: `surprise_dips` keeps exactly the rows whose
score is strictly below the median minus 1, projected to
`(timestamp, score)`; on empty input it returns an empty table whose
column list is `timestamp, score, note` — one `note` column more than
the non-empty output's shape — rather than raising. -/
theorem surprise_dips_spec :
    surprise_dips [] = { cols := ["timestamp", "score", "note"], rows := [] } ∧
    ∀ df : List Event, df ≠ [] →
      surprise_dips df =
        { cols := ["timestamp", "score"],
          rows := (df.filter (fun e =>
              e.evaluation_score
                < qmedian (df.map Event.evaluation_score) - 1)).map
            (fun e => (e.timestamp_utc, e.evaluation_score)) } :=
  ⟨rfl, fun _ h => by simp [surprise_dips, if_neg h]⟩

/-- Witness for the amended C4 at a concrete one-row subset. -/
theorem surprise_dips_spec_witness :
    surprise_dips
      [{ timestamp_utc := 5, resource_id := "R-01", evaluation_score := 3,
         primary_weakness := some "Clarity",
         recommended_resource_id := some "rec-01",
         user_prompt_character_count := 10 }]
      = { cols := ["timestamp", "score"], rows := [] } := by
  rw [surprise_dips_spec.2 _ (by simp)]
  have hq : qmedian [(3 : ℚ)] = 3 := by simp [qmedian, List.insertionSort]
  simp only [List.map_cons, List.map_nil, hq, DipsTable.mk.injEq]
  refine ⟨trivial, ?_⟩
  rw [List.filter_cons, if_neg (by norm_num)]
  rfl

/-- Claim C1: `get_recommendations` returns exactly the one placeholder
string on the empty subset; on every non-empty subset in which every
row has a primary weakness it returns exactly three strings whose
first names a most-frequent weakness label, whose second names the
mode of `recommended_resource_id` among the rows with that weakness —
with the literal "general-review" substituted when that slice has no
non-null recommendation — and whose third is a fixed tip. -/
theorem get_recommendations_spec :
    get_recommendations [] = ["No data available for recommendations."] ∧
    ∀ df : List Event, df ≠ [] → (∀ e ∈ df, e.primary_weakness ≠ none) →
      ∃ top rid,
        get_recommendations df =
          ["Primary Weakness: **" ++ top ++ "**",
           "Recommended Action: Review **" ++ rid
             ++ "** to improve in this area.",
           "Tip: Focus on consistent application of rubric criteria."] ∧
        top ∈ weaknessList df ∧
        (∀ w ∈ weaknessList df,
          (weaknessList df).count w ≤ (weaknessList df).count top) ∧
        (sliceRecIds df top = [] → rid = "general-review") ∧
        (sliceRecIds df top ≠ [] → rid ∈ sliceRecIds df top ∧
          ∀ v ∈ sliceRecIds df top,
            (sliceRecIds df top).count v ≤ (sliceRecIds df top).count rid) := by
  refine ⟨rfl, ?_⟩
  intro df hne hall
  have hw : weaknessList df ≠ [] := by
    cases df with
    | nil => exact absurd rfl hne
    | cons e rest =>
      have he := hall e (List.mem_cons_self e rest)
      cases hpe : e.primary_weakness with
      | none => exact absurd hpe he
      | some v => simp [weaknessList, List.filterMap_cons, hpe]
  cases hp : pickBest (weaknessBetter (weaknessList df)) (weaknessList df) with
  | none => exact absurd ((pickBest_eq_none _ _).1 hp) hw
  | some top =>
    refine ⟨top, (pickBest (modeBetter (sliceRecIds df top))
      (sliceRecIds df top)).getD "general-review", ?_, ?_, ?_, ?_, ?_⟩
    · simp only [get_recommendations, if_neg hne, hp]
    · exact pickBest_mem _ _ _ hp
    · exact pickBest_max _ ((weaknessList df).count)
        (fun b v hb => le_of_lt (by simpa [weaknessBetter] using hb))
        (fun b v hb => Nat.le_of_not_lt (by simpa [weaknessBetter] using hb))
        _ _ hp
    · intro hs
      rw [hs]
      rfl
    · intro hs
      cases hq : pickBest (modeBetter (sliceRecIds df top))
          (sliceRecIds df top) with
      | none => exact absurd ((pickBest_eq_none _ _).1 hq) hs
      | some m =>
        refine ⟨by simpa [hq] using pickBest_mem _ _ _ hq, ?_⟩
        intro v hv
        have hmax := pickBest_max (modeBetter (sliceRecIds df top))
          ((sliceRecIds df top).count)
          (fun b v hb => by
            simp only [modeBetter, Bool.or_eq_true, decide_eq_true_eq,
              Bool.and_eq_true, beq_iff_eq] at hb
            rcases hb with hb | ⟨hb, -⟩
            · exact le_of_lt hb
            · exact le_of_eq hb.symm)
          (fun b v hb => by
            simp only [modeBetter, Bool.or_eq_false_iff,
              decide_eq_false_iff_not] at hb
            exact Nat.le_of_not_lt hb.1)
          _ _ hq _ hv
        simpa [hq] using hmax

/-- Witness for C1: on a concrete one-row subset the three
recommendation strings are produced. -/
theorem get_recommendations_spec_witness :
    (get_recommendations
      [{ timestamp_utc := 0, resource_id := "R-01", evaluation_score := 4,
         primary_weakness := some "Clarity",
         recommended_resource_id := some "rec-01",
         user_prompt_character_count := 100 }]).length = 3 := by
  obtain ⟨top, rid, hgr, -, -, -, -⟩ :=
    get_recommendations_spec.2
      [{ timestamp_utc := 0, resource_id := "R-01", evaluation_score := 4,
         primary_weakness := some "Clarity",
         recommended_resource_id := some "rec-01",
         user_prompt_character_count := 100 }]
      (by simp) (by decide)
  rw [hgr]
  rfl

/-- Claim C5: on every subset with zero or one rows, each of
`consistency_score` (squared embedding), `bounce_back_prompts`,
`goal_progress`, `surprise_dips`, `resource_effect`,
`acted_on_feedback` and `recent_sessions` is a total function (the
embeddings return plain values, never an error) and returns its
documented empty/placeholder value. -/
theorem small_input_spec :
    consistency_score_sq ([] : List Event) = none ∧
    (∀ e : Event, consistency_score_sq [e] = some 0) ∧
    bounce_back_prompts [] = none ∧
    (∀ e : Event, bounce_back_prompts [e] = none) ∧
    (∀ (s : ℚ) (k : Nat), goal_progress [] s k = (0, k)) ∧
    (∀ (e : Event) (s : ℚ) (k : Nat),
      goal_progress [e] s k =
        if k = 0 then (0, 0) else (e.evaluation_score, k - 1)) ∧
    surprise_dips [] = { cols := ["timestamp", "score", "note"], rows := [] } ∧
    (∀ e : Event,
      surprise_dips [e] = { cols := ["timestamp", "score"], rows := [] }) ∧
    resource_effect [] = [] ∧
    (∀ e : Event, resource_effect [e] =
      [{ resource := e.resource_id, before := none,
         after := e.evaluation_score, delta := none }]) ∧
    acted_on_feedback [] = [] ∧
    (∀ e : Event, acted_on_feedback [e] = []) ∧
    (∀ limit : Nat, recent_sessions [] limit = []) ∧
    (∀ (e : Event) (limit : Nat), recent_sessions [e] limit =
      if limit = 0 then []
      else [{ timestamp := e.timestamp_utc, score := e.evaluation_score,
              weakness := e.primary_weakness, resource := e.resource_id }]) := by
  refine ⟨rfl, ?_, rfl, ?_, ?_, ?_, rfl, ?_, rfl, ?_, rfl, ?_, ?_, ?_⟩
  · intro e
    simp [consistency_score_sq, qmean]
  · intro e
    simp [bounce_back_prompts]
  · intro s k
    simp [goal_progress]
  · intro e s k
    cases k with
    | zero => rfl
    | succ k => simp [goal_progress, qmean]
  · intro e
    have hq : qmedian [e.evaluation_score] = e.evaluation_score := by
      simp [qmedian, List.insertionSort]
    have hlt : ¬ (e.evaluation_score < e.evaluation_score - 1) := by
      linarith
    simp [surprise_dips, hq, hlt]
  · intro e
    simp [resource_effect, effectRowFor, firstUse, minNat, firstDedup,
      meanOpt, qmean, List.insertionSort, List.orderedInsert]
  · intro e
    rfl
  · intro limit
    simp [recent_sessions]
  · intro e limit
    cases limit with
    | zero => rfl
    | succ k => simp [recent_sessions, List.insertionSort]

theorem filterMap_eq_map_of_isSome {α β : Type} (f : α → Option β) (d : β) :
    ∀ l : List α, (∀ x ∈ l, (f x).isSome) →
      l.filterMap f = l.map (fun x => (f x).getD d) := by
  intro l
  induction l with
  | nil => intro h; rfl
  | cons a t ih =>
    intro h
    have ha := h a (List.mem_cons_self a t)
    cases hfa : f a with
    | none => rw [hfa] at ha; simp at ha
    | some b =>
      rw [List.filterMap_cons, hfa, List.map_cons, hfa,
        ih (fun x hx => h x (List.mem_cons_of_mem _ hx))]
      rfl

/-- Claim C8: on every subset which, once sorted ascending by
timestamp, recommends at each row exactly the resource used at the
next row, `acted_on_feedback` returns one record per consecutive pair
— `n - 1` records for `n` rows — and record `i` carries the timestamp
of sorted row `i + 1`, the matched resource, and the fixed note. -/
theorem acted_on_feedback_spec (df : List Event)
    (h : ∀ i, i + 1 < df.length →
      ((List.insertionSort tsLe df).getD i default).recommended_resource_id
        = some (((List.insertionSort tsLe df).getD (i + 1)
            default).resource_id)) :
    (acted_on_feedback df).length = df.length - 1 ∧
    acted_on_feedback df =
      (List.range (df.length - 1)).map (fun i =>
        { timestamp := ((List.insertionSort tsLe df).getD (i + 1)
            default).timestamp_utc,
          resource := ((List.insertionSort tsLe df).getD (i + 1)
            default).resource_id,
          note := "Followed recommendation next session" }) := by
  have hlen : (List.insertionSort tsLe df).length = df.length :=
    List.length_insertionSort tsLe df
  have hmain : acted_on_feedback df =
      (List.range (df.length - 1)).map (fun i =>
        { timestamp := ((List.insertionSort tsLe df).getD (i + 1)
            default).timestamp_utc,
          resource := ((List.insertionSort tsLe df).getD (i + 1)
            default).resource_id,
          note := "Followed recommendation next session" }) := by
    show (List.range ((List.insertionSort tsLe df).length - 1)).filterMap
        (feedbackAt (List.insertionSort tsLe df)) = _
    rw [hlen]
    have hsome : ∀ i ∈ List.range (df.length - 1),
        (feedbackAt (List.insertionSort tsLe df) i).isSome := by
      intro i hi
      have hi1 : i + 1 < df.length := by
        have := List.mem_range.1 hi
        omega
      unfold feedbackAt
      rw [h i hi1]
      simp
    rw [filterMap_eq_map_of_isSome _ default _ hsome]
    apply List.map_congr_left
    intro i hi
    have hi1 : i + 1 < df.length := by
      have := List.mem_range.1 hi
      omega
    unfold feedbackAt
    rw [h i hi1]
    simp
  refine ⟨?_, hmain⟩
  rw [hmain]
  simp

/-- Witness for C8 on a concrete two-row subset whose first row
recommends exactly the second row's resource. -/
theorem acted_on_feedback_spec_witness :
    (acted_on_feedback
      [{ timestamp_utc := 10, resource_id := "R-01", evaluation_score := 4,
         primary_weakness := some "Clarity",
         recommended_resource_id := some "R-02",
         user_prompt_character_count := 100 },
       { timestamp_utc := 20, resource_id := "R-02", evaluation_score := 3,
         primary_weakness := some "Clarity",
         recommended_resource_id := some "R-02",
         user_prompt_character_count := 200 }]).length = 1 := by
  have := (acted_on_feedback_spec
    [{ timestamp_utc := 10, resource_id := "R-01", evaluation_score := 4,
       primary_weakness := some "Clarity",
       recommended_resource_id := some "R-02",
       user_prompt_character_count := 100 },
     { timestamp_utc := 20, resource_id := "R-02", evaluation_score := 3,
       primary_weakness := some "Clarity",
       recommended_resource_id := some "R-02",
       user_prompt_character_count := 200 }]
    (by
      intro i hi
      simp only [List.length_cons, List.length_nil] at hi
      have hi0 : i = 0 := by omega
      subst hi0
      decide)).1
  simpa using this

theorem goRec_eq (scores : List ℚ) (avg : ℚ) (i : Nat) :
    ∀ j, goRec scores avg i j =
      ((List.range' j (scores.length - j)).find?
        (fun k => avg ≤ scores.getD k 0)).map (fun k => k - i) := by
  suffices h : ∀ n j, scores.length - j = n →
      goRec scores avg i j =
        ((List.range' j (scores.length - j)).find?
          (fun k => avg ≤ scores.getD k 0)).map (fun k => k - i) by
    intro j
    exact h _ j rfl
  intro n
  induction n with
  | zero =>
    intro j hn
    rw [goRec, dif_neg (by omega), hn]
    rfl
  | succ n ih =>
    intro j hn
    rw [goRec, dif_pos (by omega), hn, List.range'_succ]
    by_cases hc : avg ≤ scores.getD j 0
    · rw [if_pos hc, List.find?_cons_of_pos _ (by simpa using hc)]
      rfl
    · rw [if_neg hc, List.find?_cons_of_neg _ (by simpa using hc)]
      have hn2 : scores.length - (j + 1) = n := by omega
      rw [ih (j + 1) hn2, hn2]

theorem filterMap_ite {α β : Type} (p : α → Prop) [DecidablePred p]
    (f : α → Option β) :
    ∀ l : List α,
      l.filterMap (fun x => if p x then f x else none)
        = (l.filter (fun x => decide (p x))).filterMap f := by
  intro l
  induction l with
  | nil => rfl
  | cons a t ih =>
    by_cases hp : p a
    · cases hfa : f a <;>
        simp [List.filterMap_cons, List.filter_cons, hp, hfa, ih]
    · simp [List.filterMap_cons, List.filter_cons, hp, ih]

theorem recoveries_eq (scores : List ℚ) :
    (List.range (scores.length - 1)).filterMap
      (fun i => if scores.getD i 0 < qmean scores - 1/2
                then goRec scores (qmean scores) i (i + 1) else none)
      = (dipIndices scores).filterMap (recoveryDistance scores) := by
  have h1 : (fun i => if scores.getD i 0 < qmean scores - 1/2
        then goRec scores (qmean scores) i (i + 1) else none)
      = (fun i => if scores.getD i 0 < qmean scores - 1/2
        then recoveryDistance scores i else none) := by
    funext i
    rw [goRec_eq]
    rfl
  rw [h1, filterMap_ite]
  rfl

theorem recoveryDistance_one_le (scores : List ℚ) (i d : Nat)
    (h : recoveryDistance scores i = some d) : 1 ≤ d := by
  unfold recoveryDistance at h
  cases hf : (List.range' (i + 1) (scores.length - (i + 1))).find?
      (fun j => qmean scores ≤ scores.getD j 0) with
  | none => rw [hf] at h; simp at h
  | some j =>
    rw [hf] at h
    simp only [Option.map_some', Option.some.injEq] at h
    have hj : j ∈ List.range' (i + 1) (scores.length - (i + 1)) :=
      List.mem_of_find?_eq_some hf
    have hji := (List.mem_range'_1.1 hj).1
    omega

/-- Claim C2: `bounce_back_prompts` returns `none` on the empty subset
and on every subset without a dip (an index other than the last whose
score is below the mean minus one half); on a subset whose every dip
recovers it returns the average over all dip indices of the forward
distance to the first later score at or above the mean; and whenever
it returns a value at all, that value is at least 1, so the sentinel
is never conflated with 0. -/
theorem bounce_back_prompts_spec :
    bounce_back_prompts [] = none ∧
    (∀ df : List Event, dipIndices (df.map Event.evaluation_score) = [] →
      bounce_back_prompts df = none) ∧
    (∀ df : List Event,
      dipIndices (df.map Event.evaluation_score) ≠ [] →
      (∀ i ∈ dipIndices (df.map Event.evaluation_score),
        (recoveryDistance (df.map Event.evaluation_score) i).isSome) →
      bounce_back_prompts df =
        some (((dipIndices (df.map Event.evaluation_score)).map
            (fun i => (((recoveryDistance (df.map Event.evaluation_score)
              i).getD 0 : Nat) : ℚ))).sum
          / (dipIndices (df.map Event.evaluation_score)).length)) ∧
    (∀ (df : List Event) (r : ℚ), bounce_back_prompts df = some r →
      1 ≤ r) := by
  refine ⟨rfl, ?_, ?_, ?_⟩
  · intro df hd
    simp only [bounce_back_prompts]
    by_cases hs : df.map Event.evaluation_score = []
    · rw [if_pos hs]
    · rw [if_neg hs, recoveries_eq, hd]
      rfl
  · intro df hne hsome
    have hs : df.map Event.evaluation_score ≠ [] := by
      intro hc
      rw [dipIndices, hc] at hne
      simp at hne
    simp only [bounce_back_prompts]
    rw [if_neg hs, recoveries_eq,
      filterMap_eq_map_of_isSome _ 0 _ hsome]
    rw [if_neg (by simpa using hne)]
    rw [List.map_map, List.length_map]
    rfl
  · intro df r hr
    simp only [bounce_back_prompts] at hr
    by_cases hs : df.map Event.evaluation_score = []
    · rw [if_pos hs] at hr
      exact absurd hr (by simp)
    · rw [if_neg hs, recoveries_eq] at hr
      set rc := (dipIndices (df.map Event.evaluation_score)).filterMap
        (recoveryDistance (df.map Event.evaluation_score)) with hrc
      by_cases hre : rc = []
      · rw [if_pos hre] at hr
        exact absurd hr (by simp)
      · rw [if_neg hre] at hr
        have hr2 : (rc.map (fun d : Nat => (d : ℚ))).sum
            / (rc.length : ℚ) = r := Option.some.inj hr
        have hone : ∀ x ∈ rc.map (fun d : Nat => (d : ℚ)),
            (1 : ℚ) ≤ x := by
          intro x hx
          obtain ⟨d, hd, rfl⟩ := List.mem_map.1 hx
          obtain ⟨i, -, hrd⟩ := List.mem_filterMap.1 (hrc ▸ hd)
          exact_mod_cast recoveryDistance_one_le _ _ _ hrd
        have hlen0 : (0 : ℚ) < (rc.length : ℚ) := by
          have hne0 : rc.length ≠ 0 := fun hc =>
            hre (List.length_eq_zero.1 hc)
          exact_mod_cast Nat.pos_of_ne_zero hne0
        have hsum : ((rc.length : ℚ))
            ≤ (rc.map (fun d : Nat => (d : ℚ))).sum := by
          have := List.card_nsmul_le_sum
            (l := rc.map (fun d : Nat => (d : ℚ))) (n := (1 : ℚ)) hone
          simpa [List.length_map, nsmul_eq_mul] using this
        rw [← hr2, le_div_iff hlen0]
        simpa using hsum

/-- Witness for C2: the subset with scores 1 and 4 has a single dip at
index 0 which recovers one step later, so the value is 1. -/
theorem bounce_back_prompts_spec_witness :
    bounce_back_prompts [sampleRow 0 "R-01" 1, sampleRow 10 "R-02" 4]
      = some 1 := by
  have hmap : ([sampleRow 0 "R-01" 1, sampleRow 10 "R-02" 4].map
      Event.evaluation_score) = [1, 4] := rfl
  have hd : dipIndices ([(1 : ℚ), 4]) = [0] := by
    unfold dipIndices qmean
    norm_num [List.range_succ]
  have hrd : recoveryDistance [(1 : ℚ), 4] 0 = some 1 := by
    unfold recoveryDistance qmean
    norm_num [List.range'_succ]
  have h := bounce_back_prompts_spec.2.2.1
    [sampleRow 0 "R-01" 1, sampleRow 10 "R-02" 4]
    (by rw [hmap, hd]; simp)
    (by
      intro i hi
      rw [hmap, hd, List.mem_singleton] at hi
      subst hi
      rw [hmap, hrd]
      rfl)
  rw [h, hmap, hd]
  simp only [List.map_cons, List.map_nil, hrd]
  norm_num

theorem firstDedup_mem {α : Type} [DecidableEq α] (l : List α) (a : α) :
    a ∈ firstDedup l ↔ a ∈ l := by
  induction l using firstDedup.induct with
  | case1 => simp [firstDedup]
  | case2 x xs ih =>
    rw [firstDedup]
    constructor
    · intro h
      rcases List.mem_cons.1 h with h | h
      · exact h ▸ List.mem_cons_self _ _
      · exact List.mem_cons_of_mem _
          (List.mem_of_mem_filter (ih.1 h))
    · intro h
      rcases List.mem_cons.1 h with h | h
      · exact h ▸ List.mem_cons_self _ _
      · by_cases hax : a = x
        · exact hax ▸ List.mem_cons_self _ _
        · exact List.mem_cons_of_mem _
            (ih.2 (List.mem_filter.2 ⟨h, by simpa using hax⟩))

/-- Claim C3: the `resource_effect` table is sorted descending by
delta (null deltas last, as pandas keeps NaN sort keys at the end),
and for every resource used in a non-empty subset whose first use has
no strictly earlier row, the table contains a row for that resource
whose `before` mean and `delta` are null rather than 0. -/
theorem resource_effect_spec :
    (∀ df : List Event, (resource_effect df).Sorted effDeltaGe) ∧
    (∀ (df : List Event) (r : String), df ≠ [] →
      (∃ e ∈ df, e.resource_id = r) →
      (∀ e ∈ df, ¬ e.timestamp_utc < firstUse df r) →
      ∃ row ∈ resource_effect df,
        row.resource = r ∧ row.before = none ∧ row.delta = none) := by
  constructor
  · intro df
    by_cases h : df = []
    · subst h
      exact List.sorted_nil
    · simp only [resource_effect, if_neg h]
      exact List.sorted_insertionSort effDeltaGe _
  · rintro df r hdf ⟨e0, he0, hre⟩ hnb
    have hbefore :
        df.filter (fun e => e.timestamp_utc < firstUse df r) = [] := by
      rw [List.filter_eq_nil_iff]
      intro e he
      simpa using hnb e he
    have hafter :
        df.filter (fun e => firstUse df r ≤ e.timestamp_utc) = df := by
      rw [List.filter_eq_self]
      intro e he
      simpa using Nat.le_of_not_lt (hnb e he)
    have hrow : effectRowFor df r = some
        { resource := r, before := none,
          after := qmean (df.map Event.evaluation_score),
          delta := none } := by
      simp only [effectRowFor, hbefore, hafter, List.map_nil]
      rw [if_neg (by simpa using hdf)]
      rfl
    refine ⟨⟨r, none, qmean (df.map Event.evaluation_score), none⟩,
      ?_, rfl, rfl, rfl⟩
    simp only [resource_effect, if_neg hdf, List.mem_insertionSort]
    exact List.mem_filterMap.2 ⟨r,
      by
        rw [List.mem_insertionSort]
        exact (firstDedup_mem _ _).2 (List.mem_map.2 ⟨e0, he0, hre⟩),
      hrow⟩

/-- Witness for C3 on a concrete one-row subset: the sole resource's
first use is the first row, so its row carries null `before` and null
`delta`. -/
theorem resource_effect_spec_witness :
    ∃ row ∈ resource_effect [sampleRow 0 "R-01" 3],
      row.resource = "R-01" ∧ row.before = none ∧ row.delta = none :=
  resource_effect_spec.2 [sampleRow 0 "R-01" 3] "R-01" (by simp)
    ⟨sampleRow 0 "R-01" 3, List.mem_singleton.2 rfl, rfl⟩
    (by
      intro e he
      rw [List.mem_singleton] at he
      subst he
      simp [sampleRow, firstUse, minNat])

theorem tail7_eq_reverse (l : List ℚ) :
    tail7 l = (l.reverse.take 7).reverse := by
  unfold tail7
  rw [List.take_reverse, List.reverse_reverse]

theorem tail7_append (a b : List ℚ) :
    tail7 (tail7 a ++ b) = tail7 (a ++ b) := by
  rw [tail7_eq_reverse (tail7 a ++ b), tail7_eq_reverse (a ++ b),
    tail7_eq_reverse a, List.reverse_append, List.reverse_reverse,
    List.reverse_append]
  congr 1
  rw [List.take_append_eq_append_take, List.take_append_eq_append_take,
    List.take_take]
  have hmin : min (7 - b.reverse.length) 7 = 7 - b.reverse.length := by
    omega
  rw [hmin]

theorem roll7_length (buf : List ℚ) (xs : List ℚ) :
    (roll7 buf xs).length = xs.length := by
  induction xs generalizing buf with
  | nil => rfl
  | cons x rest ih => simp [roll7, ih]

theorem roll7_getD (xs : List ℚ) :
    ∀ (buf : List ℚ) (i : Nat), i < xs.length →
      (roll7 buf xs).getD i 0
        = (tail7 (buf ++ xs.take (i + 1))).sum
          / (tail7 (buf ++ xs.take (i + 1))).length := by
  induction xs with
  | nil =>
    intro buf i hi
    simp at hi
  | cons x rest ih =>
    intro buf i hi
    cases i with
    | zero =>
      simp [roll7, List.take_succ_cons]
    | succ i =>
      have hi2 : i < rest.length := by
        simpa using hi
      simp only [roll7, List.getD_cons_succ]
      rw [ih (tail7 (buf ++ [x])) i hi2, tail7_append, List.append_assoc]
      rfl

/-- Claim C7: for every non-empty subset the weakness-decay series has
one column per distinct weakness label; each column has one entry per
distinct date of the pivot index; entry `i` equals the mean of the raw
daily counts over the trailing window of the last at most 7 pivot
rows (clipped to the available history at the start); and the first
entry equals the first date's raw daily count. -/
theorem weakness_decay_spec (df : List Event) (hdf : df ≠ []) :
    (weakness_decay_chart df).map Prod.fst = decayWeaknesses df ∧
    ∀ p ∈ weakness_decay_chart df,
      p.2.length = (decayDates df).length ∧
      (∀ i < (decayDates df).length,
        p.2.getD i 0 = smoothedSpec (rawSeries df p.1) i) ∧
      (decayDates df ≠ [] →
        p.2.getD 0 0
          = ((dailyCount df ((decayDates df).getD 0 0) p.1 : Nat) : ℚ)) := by
  have hchart : weakness_decay_chart df
      = (decayWeaknesses df).map (fun w => (w, roll7 [] (rawSeries df w))) := by
    simp only [weakness_decay_chart, if_neg hdf]
  constructor
  · rw [hchart, List.map_map]
    exact List.map_id _
  · intro p hp
    rw [hchart] at hp
    obtain ⟨w, -, rfl⟩ := List.mem_map.1 hp
    have hrawlen : (rawSeries df w).length = (decayDates df).length :=
      List.length_map _ _
    refine ⟨by rw [roll7_length, hrawlen], ?_, ?_⟩
    · intro i hi
      have hi2 : i < (rawSeries df w).length := by rw [hrawlen]; exact hi
      rw [roll7_getD _ _ _ hi2, List.nil_append]
      have htl : ((rawSeries df w).take (i + 1)).length = i + 1 := by
        rw [List.length_take]
        omega
      unfold smoothedSpec tail7
      rw [htl]
    · intro hne
      have h0 : 0 < (decayDates df).length := List.length_pos.2 hne
      have hi2 : 0 < (rawSeries df w).length := by rw [hrawlen]; exact h0
      rw [roll7_getD _ _ _ hi2, List.nil_append]
      cases hd : decayDates df with
      | nil => exact absurd hd hne
      | cons d t =>
        have hraw : rawSeries df w
            = (dailyCount df d w : ℚ) :: t.map (fun x => (dailyCount df x w : ℚ)) := by
          unfold rawSeries
          rw [hd, List.map_cons]
        rw [hraw]
        simp [tail7]

/-- Witness for C7 at a concrete one-row subset: the chart's columns
are exactly the distinct weakness labels. -/
theorem weakness_decay_spec_witness :
    (weakness_decay_chart [sampleRow 0 "R-01" 3]).map Prod.fst
      = decayWeaknesses [sampleRow 0 "R-01" 3] :=
  (weakness_decay_spec [sampleRow 0 "R-01" 3] (by simp)).1

end Scorecard
